import Mathlib

/-!
# Verification of the kudu-adapter-couch CouchDB adapter

Shallow embedding of `src/kudu-adapter-couch.js`: the default
`documentToModel` / `modelToDocument` codec closures installed by the
adapter constructor, and the adapter operations `create`, `get`, `getAll`,
`getRelated`, `update` and `getFromView`.

JavaScript objects are modelled as association lists of string keys and
`JsValue`s, kept in insertion order as JavaScript does for string keys:
property assignment overwrites in place or appends at the end, `delete`
removes the key.  `Object.keys(o).forEach` iterates over a snapshot of the
key list taken before the loop body runs, which the embedding reproduces by
recursing over `keysOf` of the original object while threading the mutated
object.  Property access on `undefined` throws a `TypeError`; fallible code
is therefore embedded in `Except JsErr`.

The document-store collaborator (CouchPromised) is external to the
repository; each adapter operation is split into a synchronous step
returning the `StoreRequest` it would issue (or the validation error thrown
before any store work), and a continuation applied to the store response.
-/

namespace KuduCouch

/-- The JavaScript values the adapter manipulates: `undefined`, strings
(identifiers, type tags, revision tokens and other scalars), arrays and
plain objects. -/
inductive JsValue where
  | undefined : JsValue
  | str : String → JsValue
  | arr : List JsValue → JsValue
  | obj : List (String × JsValue) → JsValue

/-- A JavaScript object as an ordered association list (a CouchDB document,
a model instance's own enumerable properties, a view descriptor, ...). -/
abbrev Doc := List (String × JsValue)

/-- JavaScript truthiness restricted to the values of this model: `undefined`
and the empty string are falsy, every other string, array and object is
truthy. -/
def truthy : JsValue → Bool
  | .undefined => false
  | .str s => s != ""
  | .arr _ => true
  | .obj _ => true

/-- Errors thrown by the embedded code: `TypeError` for property access on
`undefined`, and ordinary `Error`s for the adapter's own validation
failures. -/
inductive JsErr where
  | typeError : String → JsErr
  | jsError : String → JsErr
  deriving Repr, DecidableEq

/-- First binding of a key in an object (JavaScript objects have at most one
binding per key, so this is the binding). -/
def lookupKey : Doc → String → Option JsValue
  | [], _ => none
  | (kk, v) :: rest, q => if kk = q then some v else lookupKey rest q

/-- JavaScript property assignment `o[k] = v`: overwrite in place if the key
exists, otherwise append at the end. -/
def setKey : Doc → String → JsValue → Doc
  | [], k, v => [(k, v)]
  | (kk, vv) :: rest, k, v =>
    if kk = k then (k, v) :: rest else (kk, vv) :: setKey rest k v

/-- JavaScript `delete o[k]`. -/
def delKey : Doc → String → Doc
  | [], _ => []
  | (kk, vv) :: rest, k =>
    if kk = k then delKey rest k else (kk, vv) :: delKey rest k

/-- `Object.keys`. -/
def keysOf (d : Doc) : List String := d.map Prod.fst

/-- JavaScript property access `v.p` as the fallible operation it is:
access on `undefined` throws a `TypeError`; strings and arrays have none of
the properties the adapter reads (`id`, `type`, `hasMany`), so access
yields `undefined`; on an object it is key lookup defaulting to
`undefined`. -/
def getField : JsValue → String → Except JsErr JsValue
  | .undefined, p => .error (.typeError ("Cannot read property " ++ p ++ " of undefined"))
  | .str _, _ => .ok .undefined
  | .arr _, _ => .ok .undefined
  | .obj fields, p => .ok ((lookupKey fields p).getD .undefined)

/-- Total property access, valid for values already known to be truthy
(JavaScript member access on a non-nullish value never throws). -/
def fieldD (v : JsValue) (p : String) : JsValue :=
  match v with
  | .obj fields => (lookupKey fields p).getD .undefined
  | _ => .undefined

/-- The key test `key.match(/Id(s?)$/)` of the default `documentToModel`,
together with the amount it strips: a key ending in `Ids` loses three
characters (to-many, the captured group matched), a key ending in `Id` but
not `Ids` loses two (to-one).  Returns the stripped key and whether the
plural group matched. -/
def stripIdSuffix (k : String) : Option (String × Bool) :=
  if k.data.reverse.take 3 = ['s', 'd', 'I'] then
    some (⟨(k.data.reverse.drop 3).reverse⟩, true)
  else if k.data.reverse.take 2 = ['d', 'I'] then
    some (⟨(k.data.reverse.drop 2).reverse⟩, false)
  else none

/-- The `Object.keys(doc).forEach` loop of the default `documentToModel`
(lines 48-64): for every snapshot key matching `/Id(s?)$/`, move its
current value to the stripped key (`doc[newKey] = doc[key]`, reading the
value at processing time) and delete the suffixed key. -/
def docToModelLoop : List String → Doc → Doc
  | [], d => d
  | k :: rest, d =>
    docToModelLoop rest
      (match stripIdSuffix k with
       | some (nk, _) => delKey (setKey d nk ((lookupKey d k).getD .undefined)) k
       | none => d)

/-- The default `documentToModel` closure (lines 43-70).  The body also
binds `kudu.getModel(doc.type).schema.relationships`, but that binding is
dead code (`relationships` is never read), so the embedding elides the
collaborator lookup.  After the suffix-stripping loop, `doc.id = doc._id`
runs unconditionally (producing an `undefined`-valued `id` when `_id` is
absent) followed by `delete doc._id`. -/
def documentToModel (d : Doc) : Doc :=
  let d1 := docToModelLoop (keysOf d) d
  delKey (setKey d1 "id" ((lookupKey d1 "_id").getD .undefined)) "_id"

/-- `prop.map(item => item.id)` over the elements of a to-many relationship
value: throws if any element is `undefined`. -/
def mapIds : List JsValue → Except JsErr (List JsValue)
  | [] => .ok []
  | v :: rest => do
    let idv ← getField v "id"
    let restIds ← mapIds rest
    .ok (idv :: restIds)

/-- One iteration of the `Object.keys(doc).forEach` loop of the default
`modelToDocument` (lines 86-100), for snapshot key `k` against current
object `d`.  When `k` is a declared relationship: read `prop = doc[k]`,
evaluate `prop.id` (throws when `prop` is `undefined`); when truthy, set
`doc[k + "Id"]`; otherwise, when `prop` is an array, evaluate `prop[0].id`
(throws when the array is empty) and when truthy set `doc[k + "Ids"]` to
the mapped identifiers.  In every non-throwing case `delete doc[k]` runs. -/
def modelToDocStep (rels : List String) (k : String) (d : Doc) : Except JsErr Doc :=
  if rels.contains k then
    match getField ((lookupKey d k).getD .undefined) "id" with
    | .error e => .error e
    | .ok idv =>
      if truthy idv then .ok (delKey (setKey d (k ++ "Id") idv) k)
      else
        match (lookupKey d k).getD .undefined with
        | .arr elems =>
          match getField (elems.headD .undefined) "id" with
          | .error e => .error e
          | .ok fidv =>
            if truthy fidv then
              match mapIds elems with
              | .error e => .error e
              | .ok ids => .ok (delKey (setKey d (k ++ "Ids") (.arr ids)) k)
            else .ok (delKey d k)
        | _ => .ok (delKey d k)
  else .ok d

/-- The full relationship loop of the default `modelToDocument`, over the
snapshot of the instance's keys. -/
def modelToDocLoop (rels : List String) : List String → Doc → Except JsErr Doc
  | [], d => .ok d
  | k :: rest, d =>
    match modelToDocStep rels k d with
    | .error e => .error e
    | .ok d2 => modelToDocLoop rels rest d2

/-- The default `modelToDocument` closure (lines 81-108).  `rels` is the
set of property names bound in `instance.constructor.schema.relationships`
(every relationship descriptor object is truthy); `inst` is the shallow
copy `instance.toJSON()` of the instance's own enumerable properties.
After the relationship loop, `if (instance.id)` (read from the original
instance) renames the copy's `id` to `_id`. -/
def modelToDocument (rels : List String) (inst : Doc) : Except JsErr Doc := do
  let d ← modelToDocLoop rels (keysOf inst) inst
  if truthy ((lookupKey inst "id").getD .undefined) then
    .ok (delKey (setKey d "_id" ((lookupKey d "id").getD .undefined)) "id")
  else
    .ok d

/-- Encoding an instance and decoding the resulting document with the two
default codec closures. -/
def roundtrip (rels : List String) (inst : Doc) : Except JsErr Doc :=
  (modelToDocument rels inst).map documentToModel

/-- Equality of two objects up to the `identifier`/`id` vs `_id` renaming:
agreement at every key other than `id` and `_id`. -/
def eqUpToId (a b : Doc) : Prop :=
  ∀ q : String, q ≠ "id" → q ≠ "_id" → lookupKey a q = lookupKey b q

/-- Every property value is a scalar (a string in this model). -/
def allScalar (d : Doc) : Bool :=
  d.all fun pr => match pr.2 with
    | .str _ => true
    | _ => false

/-! ## The adapter operations

Each adapter method is split at its store round-trip: a synchronous step
function performs the method's validations in source order and returns the
`StoreRequest` it would hand to the CouchPromised collaborator (so an
`error` result means the method threw before any store call was made), and
a continuation models the `.then(...)` callback applied to the store's
response. -/

/-- The query parameters the adapter passes to `couch.view`: `getAll` uses
a `rootKey` prefix, `getRelated` an exact compound `key`.  Both pass
`include_docs: true`, which is left implicit. -/
inductive ViewParams where
  | rootKey : List JsValue → ViewParams
  | key : List JsValue → ViewParams

/-- A call issued to the CouchPromised document-store collaborator. -/
inductive StoreRequest where
  | insert : Doc → StoreRequest
  | updateDoc : Doc → StoreRequest
  | getOne : JsValue → StoreRequest
  | fetch : List JsValue → StoreRequest
  | viewQuery : JsValue → JsValue → ViewParams → StoreRequest
  | viewDocs : JsValue → JsValue → StoreRequest

/-- The adapter's view configuration after the constructor's defaulting:
the descriptor objects stored at `config.views.type` and
`config.views.related`. -/
structure ViewsConfig where
  typeView : Doc
  relatedView : Doc

/-- The default view descriptors installed by the constructor: first the
`type` descriptor, then the `related` descriptor. -/
def defaultViews : ViewsConfig :=
  ⟨[("design", .str "kudu-adapter-couch"), ("view", .str "type_id")],
   [("design", .str "kudu-adapter-couch"),
    ("view", .str "type-ancestor_type-ancestor_id")]⟩

/-- The check `!doc.design || !doc.view` on a view descriptor. -/
def viewIncomplete (v : Doc) : Bool :=
  !truthy ((lookupKey v "design").getD .undefined) ||
    !truthy ((lookupKey v "view").getD .undefined)

/-- A value passed as the `instance` argument of `create`/`update`:
its own enumerable data (what `toJSON` returns as a shallow copy) and
whether the duck-typed `toJSON` capability is present.  The absent/falsy
argument case is modelled by `Option`. -/
structure KuduInstance where
  data : Doc
  hasToJSON : Bool

/-- Validation and conversion stage of `create` (lines 133-145): throw
unless a model-like instance was supplied, then convert it (which may
itself throw) and issue `couch.insert` with the converted document. -/
def createStep (rels : List String) (inst : Option KuduInstance) :
    Except JsErr StoreRequest :=
  match inst with
  | none => .error (.jsError "Expected a Kudu model instance to save.")
  | some i =>
    if i.hasToJSON then (modelToDocument rels i.data).map .insert
    else .error (.jsError "Expected a Kudu model instance to save.")

/-- The `.then` callback of `create` (lines 146-155): copy `res._id` and
`res._rev` onto the original instance (`instance.id = res._id;
instance._rev = res._rev`) and return that same instance. -/
def createCont (i : KuduInstance) (res : Doc) : Doc :=
  setKey (setKey i.data "id" ((lookupKey res "_id").getD .undefined))
    "_rev" ((lookupKey res "_rev").getD .undefined)

/-- The whole `create` method against a given store insert-response:
validation and conversion, then the in-place mutation of the instance the
callback resolves with. -/
def create (rels : List String) (inst : Option KuduInstance) (res : Doc) :
    Except JsErr Doc :=
  match inst with
  | none => .error (.jsError "Expected a Kudu model instance to save.")
  | some i =>
    if i.hasToJSON then (modelToDocument rels i.data).map (fun _ => createCont i res)
    else .error (.jsError "Expected a Kudu model instance to save.")

/-- Validation and conversion stage of `update` (lines 236-248), issuing
`couch.update`. -/
def updateStep (rels : List String) (inst : Option KuduInstance) :
    Except JsErr StoreRequest :=
  match inst with
  | none => .error (.jsError "Expected a Kudu model instance to update.")
  | some i =>
    if i.hasToJSON then (modelToDocument rels i.data).map .updateDoc
    else .error (.jsError "Expected a Kudu model instance to update.")

/-- Synchronous stage of `get` (lines 159-168): validate `type` and `id`,
then call `couch.fetch` when the identifier argument is an array and
`couch.get` otherwise. -/
def getStep (ty id : JsValue) : Except JsErr StoreRequest :=
  if !truthy ty || !truthy id then
    .error (.jsError "Expected a Kudu model type and unique identifier.")
  else
    match id with
    | .arr ids => .ok (.fetch ids)
    | _ => .ok (.getOne id)

/-- The `.then` callback of `get` for a single identifier: decode the
fetched document. -/
def getContSingle (res : Doc) : Doc := documentToModel res

/-- The `.then` callback of `get` for an array of identifiers (line
169-172): wrap the decoded documents in `{rows: [...]}`. -/
def getContMany (res : List Doc) : JsValue :=
  .obj [("rows", .arr (res.map (fun d => .obj (documentToModel d))))]

/-- Synchronous stage of `getAll` (lines 178-196): validate `type`, then
require a complete `type` view descriptor before querying it with the
`[type]` root key. -/
def getAllStep (ty : JsValue) (views : ViewsConfig) : Except JsErr StoreRequest :=
  if !truthy ty then .error (.jsError "Expected a Kudu model type.")
  else if viewIncomplete views.typeView then
    .error (.jsError "No CouchDB view available for type queries.")
  else
    .ok (.viewQuery ((lookupKey views.typeView "design").getD .undefined)
      ((lookupKey views.typeView "view").getD .undefined) (.rootKey [ty]))

/-- The `.then` callback of `getAll` (lines 197-202): `{rows: [...]}` of
the decoded row documents. -/
def getAllCont (rows : List Doc) : JsValue :=
  .obj [("rows", .arr (rows.map (fun d => .obj (documentToModel d))))]

/-- Synchronous stage of `getRelated` (lines 205-222): validate the three
arguments, require a complete `related` view descriptor, then query it
with the exact key `[relationship.type, ancestorType, ancestorId]`. -/
def getRelatedStep (ancestorType ancestorId relationship : JsValue)
    (views : ViewsConfig) : Except JsErr StoreRequest :=
  if !truthy ancestorType || !truthy ancestorId || !truthy relationship then
    .error (.jsError
      "Expected an ancestor type, an identifier and a relationship object.")
  else if viewIncomplete views.relatedView then
    .error (.jsError "No CouchDB view available for type queries.")
  else
    .ok (.viewQuery ((lookupKey views.relatedView "design").getD .undefined)
      ((lookupKey views.relatedView "view").getD .undefined)
      (.key [fieldD relationship "type", ancestorType, ancestorId]))

/-- The `.then` callback of `getRelated` (lines 223-232), applied to the
`doc` fields of the response rows: when `relationship.hasMany` is truthy,
`{rows: [...]}` of all decoded documents; otherwise `res.rows[0].doc`,
which throws a `TypeError` when there are no rows and is decoded and
returned bare otherwise. -/
def getRelatedCont (relationship : JsValue) (rows : List Doc) :
    Except JsErr JsValue :=
  if truthy (fieldD relationship "hasMany") then
    .ok (.obj [("rows", .arr (rows.map (fun d => .obj (documentToModel d))))])
  else
    match rows with
    | [] => .error (.typeError "Cannot read property doc of undefined")
    | d :: _ => .ok (.obj (documentToModel d))

/-- Synchronous stage of `getFromView` (lines 266-272): validate the
design-document and view identifiers (which default to the falsy `''`),
then call `couch.viewDocs`. -/
def getFromViewStep (design view : JsValue) : Except JsErr StoreRequest :=
  if !truthy design || !truthy view then
    .error (.jsError "Expected a design document identifier and view.")
  else .ok (.viewDocs design view)

/-! ## Concrete inputs used by the counterexamples and witnesses -/

/-- The concrete scalar-only instance refuting claim C1 as stated: the
scalar property name `externalId` matches the decoder's suffix heuristic. -/
def C1inst : Doc := [("type", .str "t"), ("externalId", .str "7"), ("id", .str "1")]

/-- What the round-trip actually produces on `C1inst`: the scalar key
`externalId` comes back as `external`. -/
def C1out : Doc := [("type", .str "t"), ("external", .str "7"), ("id", .str "1")]

/-- A concrete scalar instance for exercising `C1_scalar_roundtrip`. -/
def C1winst : Doc := [("name", .str "n"), ("id", .str "1")]

/-- The relationship names of the C2 counterexample schema. -/
def C2rels : List String := ["linked", "linkedId"]

/-- The C2 counterexample instance: two declared relationship properties,
one of which is named with the other's `Id` suffix. -/
def C2inst : Doc :=
  [("linked", .obj [("id", .str "X")]), ("linkedId", .obj [("id", .str "Y")])]

/-- A well-behaved instance with one to-one and one to-many relationship. -/
def C2winst : Doc :=
  [("linked", .obj [("id", .str "X")]),
   ("tags", .arr [.obj [("id", .str "A")], .obj [("id", .str "B")]])]

/-- The document `C2winst` encodes to. -/
def C2wdoc : Doc := [("linkedId", .str "X"), ("tagsIds", .arr [.str "A", .str "B"])]

/-- The C3 failing input: a declared to-many relationship holding an empty
array. -/
def C3inst : Doc := [("items", .arr [])]

/-- The C4 counterexample document: a second suffixed key strips onto the
same bare name. -/
def C4doc : Doc := [("linkedId", .str "7"), ("linkedIds", .str "9")]

/-- The spec's own C4 example document. -/
def C4wdoc : Doc := [("linkedId", .str "7")]

/-- A concrete store response (one fetched document) for the C9 witness. -/
def C9res : List Doc := [[("_id", .str "1"), ("_rev", .str "1")]]

/-! ## Basic lemmas about the object operations -/

theorem lookupKey_cons (kk : String) (vv : JsValue) (rest : Doc) (q : String) :
    lookupKey ((kk, vv) :: rest) q = if kk = q then some vv else lookupKey rest q := rfl

theorem keysOf_cons (kk : String) (vv : JsValue) (rest : Doc) :
    keysOf ((kk, vv) :: rest) = kk :: keysOf rest := rfl

theorem lookupKey_setKey_self (d : Doc) (k : String) (v : JsValue) :
    lookupKey (setKey d k v) k = some v := by
  induction d with
  | nil => simp [setKey, lookupKey]
  | cons p rest ih =>
    obtain ⟨kk, vv⟩ := p
    by_cases h : kk = k
    · subst h; simp [setKey, lookupKey]
    · rw [show setKey ((kk, vv) :: rest) k v = (kk, vv) :: setKey rest k v from by
        simp [setKey, h]]
      rw [lookupKey_cons, if_neg h, ih]

theorem lookupKey_setKey_ne (d : Doc) (k q : String) (v : JsValue) (h : q ≠ k) :
    lookupKey (setKey d k v) q = lookupKey d q := by
  have hkq : k ≠ q := fun he => h he.symm
  induction d with
  | nil => simp [setKey, lookupKey, hkq]
  | cons p rest ih =>
    obtain ⟨kk, vv⟩ := p
    by_cases hk : kk = k
    · subst hk
      rw [show setKey ((kk, vv) :: rest) kk v = (kk, v) :: rest from by simp [setKey]]
      rw [lookupKey_cons, lookupKey_cons, if_neg hkq, if_neg hkq]
    · rw [show setKey ((kk, vv) :: rest) k v = (kk, vv) :: setKey rest k v from by
        simp [setKey, hk]]
      rw [lookupKey_cons, lookupKey_cons, ih]

theorem lookupKey_delKey_self (d : Doc) (k : String) :
    lookupKey (delKey d k) k = none := by
  induction d with
  | nil => simp [delKey, lookupKey]
  | cons p rest ih =>
    obtain ⟨kk, vv⟩ := p
    by_cases h : kk = k
    · rw [show delKey ((kk, vv) :: rest) k = delKey rest k from by simp [delKey, h], ih]
    · rw [show delKey ((kk, vv) :: rest) k = (kk, vv) :: delKey rest k from by
        simp [delKey, h]]
      rw [lookupKey_cons, if_neg h, ih]

theorem lookupKey_delKey_ne (d : Doc) (k q : String) (h : q ≠ k) :
    lookupKey (delKey d k) q = lookupKey d q := by
  induction d with
  | nil => simp [delKey]
  | cons p rest ih =>
    obtain ⟨kk, vv⟩ := p
    by_cases hk : kk = k
    · subst hk
      have hkq : kk ≠ q := fun he => h he.symm
      rw [show delKey ((kk, vv) :: rest) kk = delKey rest kk from by simp [delKey]]
      rw [ih, lookupKey_cons, if_neg hkq]
    · rw [show delKey ((kk, vv) :: rest) k = (kk, vv) :: delKey rest k from by
        simp [delKey, hk]]
      rw [lookupKey_cons, lookupKey_cons, ih]

theorem mem_keysOf_of_lookupKey (d : Doc) (q : String) (v : JsValue)
    (h : lookupKey d q = some v) : q ∈ keysOf d := by
  induction d with
  | nil => simp [lookupKey] at h
  | cons p rest ih =>
    obtain ⟨kk, vv⟩ := p
    rw [keysOf_cons, List.mem_cons]
    by_cases hk : kk = q
    · exact Or.inl hk.symm
    · rw [lookupKey_cons, if_neg hk] at h
      exact Or.inr (ih h)

theorem keysOf_setKey_subset (d : Doc) (k q : String) (v : JsValue)
    (h : q ∈ keysOf (setKey d k v)) : q = k ∨ q ∈ keysOf d := by
  induction d with
  | nil =>
    rw [show setKey ([] : Doc) k v = [(k, v)] from rfl, keysOf_cons] at h
    rcases List.mem_cons.mp h with h | h
    · exact Or.inl h
    · simp [keysOf] at h
  | cons p rest ih =>
    obtain ⟨kk, vv⟩ := p
    by_cases hk : kk = k
    · subst hk
      rw [show setKey ((kk, vv) :: rest) kk v = (kk, v) :: rest from by simp [setKey],
        keysOf_cons] at h
      rcases List.mem_cons.mp h with h | h
      · exact Or.inl h
      · exact Or.inr (by rw [keysOf_cons]; exact List.mem_cons.mpr (Or.inr h))
    · rw [show setKey ((kk, vv) :: rest) k v = (kk, vv) :: setKey rest k v from by
        simp [setKey, hk], keysOf_cons] at h
      rcases List.mem_cons.mp h with h | h
      · exact Or.inr (by rw [keysOf_cons]; exact List.mem_cons.mpr (Or.inl h))
      · rcases ih h with h2 | h2
        · exact Or.inl h2
        · exact Or.inr (by rw [keysOf_cons]; exact List.mem_cons.mpr (Or.inr h2))

theorem keysOf_delKey_subset (d : Doc) (k q : String)
    (h : q ∈ keysOf (delKey d k)) : q ∈ keysOf d := by
  induction d with
  | nil => simpa [delKey] using h
  | cons p rest ih =>
    obtain ⟨kk, vv⟩ := p
    rw [keysOf_cons, List.mem_cons]
    by_cases hk : kk = k
    · rw [show delKey ((kk, vv) :: rest) k = delKey rest k from by simp [delKey, hk]] at h
      exact Or.inr (ih h)
    · rw [show delKey ((kk, vv) :: rest) k = (kk, vv) :: delKey rest k from by
        simp [delKey, hk], keysOf_cons] at h
      rcases List.mem_cons.mp h with h | h
      · exact Or.inl h
      · exact Or.inr (ih h)

/-! ## Lemmas about the `/Id(s?)$/` suffix test -/

theorem stripIdSuffix_append_Id (p : String) :
    stripIdSuffix (p ++ "Id") = some (p, false) := by
  obtain ⟨l⟩ := p
  have hdata : (String.mk l ++ "Id").data.reverse = 'd' :: 'I' :: l.reverse := by
    show (l ++ ['I', 'd']).reverse = 'd' :: 'I' :: l.reverse
    simp
  unfold stripIdSuffix
  rw [hdata]
  have h3 : ('d' :: 'I' :: l.reverse).take 3 ≠ ['s', 'd', 'I'] := by
    intro h
    simp only [List.take_succ_cons, List.cons.injEq] at h
    exact absurd h.1 (by decide)
  rw [if_neg h3]
  have h2 : ('d' :: 'I' :: l.reverse).take 2 = ['d', 'I'] := by
    simp [List.take_succ_cons]
  rw [if_pos h2]
  show some (String.mk (l.reverse.reverse), false) = some (String.mk l, false)
  simp

theorem stripIdSuffix_append_Ids (p : String) :
    stripIdSuffix (p ++ "Ids") = some (p, true) := by
  obtain ⟨l⟩ := p
  have hdata : (String.mk l ++ "Ids").data.reverse = 's' :: 'd' :: 'I' :: l.reverse := by
    show (l ++ ['I', 'd', 's']).reverse = 's' :: 'd' :: 'I' :: l.reverse
    simp
  unfold stripIdSuffix
  rw [hdata]
  have h3 : ('s' :: 'd' :: 'I' :: l.reverse).take 3 = ['s', 'd', 'I'] := by
    simp [List.take_succ_cons]
  rw [if_pos h3]
  show some (String.mk (l.reverse.reverse), true) = some (String.mk l, true)
  simp

theorem append_Id_inj (p q : String) (h : p ++ "Id" = q ++ "Id") : p = q := by
  have h1 := stripIdSuffix_append_Id p
  rw [h, stripIdSuffix_append_Id q] at h1
  have h2 := Option.some.inj h1
  injection h2 with ha hb
  exact ha.symm

theorem append_Ids_inj (p q : String) (h : p ++ "Ids" = q ++ "Ids") : p = q := by
  have h1 := stripIdSuffix_append_Ids p
  rw [h, stripIdSuffix_append_Ids q] at h1
  have h2 := Option.some.inj h1
  injection h2 with ha hb
  exact ha.symm

theorem append_Id_ne_append_Ids (p q : String) : p ++ "Id" ≠ q ++ "Ids" := by
  intro h
  have h1 := stripIdSuffix_append_Id p
  rw [h, stripIdSuffix_append_Ids q] at h1
  have h2 := Option.some.inj h1
  injection h2 with ha hb
  exact Bool.noConfusion hb

theorem ne_of_stripIdSuffix_none_left (k q : String) (nk : String) (b : Bool)
    (hk : stripIdSuffix k = none) (hq : stripIdSuffix q = some (nk, b)) : k ≠ q := by
  intro h
  rw [h, hq] at hk
  exact Option.noConfusion hk

theorem stripIdSuffix_id : stripIdSuffix "id" = none := by decide

theorem stripIdSuffix_uid : stripIdSuffix "_id" = none := by decide

theorem stripIdSuffix_ne_self (k nk : String) (b : Bool)
    (h : stripIdSuffix k = some (nk, b)) : nk ≠ k := by
  intro he
  subst he
  unfold stripIdSuffix at h
  split at h
  · rename_i h3
    have hlen : (nk.data.reverse.take 3).length = 3 := by rw [h3]; rfl
    have hle : 3 ≤ nk.data.reverse.length := by
      rw [List.length_take] at hlen; omega
    have := congrArg (fun s : String × Bool => s.1.data.length)
      ((Option.some.injEq _ _).mp h)
    simp [List.length_drop, List.length_reverse] at this hle
    omega
  · split at h
    · rename_i h2
      have hlen : (nk.data.reverse.take 2).length = 2 := by rw [h2]; rfl
      have hle : 2 ≤ nk.data.reverse.length := by
        rw [List.length_take] at hlen; omega
      have := congrArg (fun s : String × Bool => s.1.data.length)
        ((Option.some.injEq _ _).mp h)
      simp [List.length_drop, List.length_reverse] at this hle
      omega
    · exact Option.noConfusion h

/-! ## Behaviour of the decoder loop -/

theorem docToModelLoop_of_none :
    ∀ (ks : List String) (d : Doc),
      (∀ k ∈ ks, stripIdSuffix k = none) → docToModelLoop ks d = d := by
  intro ks
  induction ks with
  | nil => intro d _; rfl
  | cons k rest ih =>
    intro d h
    have hk := h k (List.mem_cons_self _ _)
    simp only [docToModelLoop, hk]
    exact ih d (fun k2 hk2 => h k2 (List.mem_cons_of_mem _ hk2))

/-- A key that no snapshot key equals or strips onto keeps its binding
through the decoder loop. -/
theorem docToModelLoop_untouched (q : String) :
    ∀ (ks : List String) (d : Doc),
      (∀ k ∈ ks, ∀ nk b, stripIdSuffix k = some (nk, b) → q ≠ k ∧ q ≠ nk) →
      lookupKey (docToModelLoop ks d) q = lookupKey d q := by
  intro ks
  induction ks with
  | nil => intro d _; rfl
  | cons k rest ih =>
    intro d hq
    cases hs : stripIdSuffix k with
    | none =>
      simp only [docToModelLoop, hs]
      exact ih d (fun k2 hk2 => hq k2 (List.mem_cons_of_mem _ hk2))
    | some nkb =>
      obtain ⟨nk, b⟩ := nkb
      obtain ⟨hqk, hqnk⟩ := hq k (List.mem_cons_self _ _) nk b hs
      simp only [docToModelLoop, hs]
      rw [ih _ (fun k2 hk2 => hq k2 (List.mem_cons_of_mem _ hk2))]
      rw [lookupKey_delKey_ne _ _ _ hqk, lookupKey_setKey_ne _ _ _ _ hqnk]

/-- Processing a suffixed key `k` through the decoder loop: its value moves
to the stripped key `nk` and `k` is deleted, provided no other snapshot key
aliases `nk` or `k` and `nk` itself is not subject to stripping. -/
theorem docToModelLoop_hit :
    ∀ (ks : List String) (d : Doc) (k nk : String) (b : Bool) (v : JsValue),
      k ∈ ks → ks.Nodup →
      stripIdSuffix k = some (nk, b) →
      lookupKey d k = some v →
      (∀ k2 ∈ ks, k2 ≠ k → ∀ nk2 b2, stripIdSuffix k2 = some (nk2, b2) →
        nk2 ≠ nk ∧ nk2 ≠ k) →
      (nk ∈ ks → stripIdSuffix nk = none) →
      lookupKey (docToModelLoop ks d) nk = some v ∧
        lookupKey (docToModelLoop ks d) k = none := by
  intro ks
  induction ks with
  | nil => intro d k nk b v hmem; cases hmem
  | cons k0 rest ih =>
    intro d k nk b v hmem hnd hs hv hint hnk
    have hnd2 := (List.nodup_cons.mp hnd).2
    have hk0nin := (List.nodup_cons.mp hnd).1
    by_cases hk0 : k0 = k
    · subst hk0
      have hnkk : nk ≠ k0 := stripIdSuffix_ne_self _ _ _ hs
      simp only [docToModelLoop, hs, hv, Option.getD_some]
      constructor
      · rw [docToModelLoop_untouched nk rest _ ?side]
        · rw [lookupKey_delKey_ne _ _ _ hnkk, lookupKey_setKey_self]
        case side =>
          intro k2 hk2 nk2 b2 hs2
          have hk2ne : k2 ≠ k0 := fun he => hk0nin (he ▸ hk2)
          constructor
          · intro he
            have hnone := hnk (List.mem_cons_of_mem _ (he.symm ▸ hk2))
            rw [he, hs2] at hnone
            exact Option.noConfusion hnone
          · exact fun he =>
              (hint k2 (List.mem_cons_of_mem _ hk2) hk2ne nk2 b2 hs2).1 he.symm
      · rw [docToModelLoop_untouched k0 rest _ ?side2]
        · exact lookupKey_delKey_self _ _
        case side2 =>
          intro k2 hk2 nk2 b2 hs2
          have hk2ne : k2 ≠ k0 := fun he => hk0nin (he ▸ hk2)
          refine ⟨fun he => hk0nin (he.symm ▸ hk2), fun he =>
            (hint k2 (List.mem_cons_of_mem _ hk2) hk2ne nk2 b2 hs2).2 he.symm⟩
    · have hmem2 : k ∈ rest := by
        rcases List.mem_cons.mp hmem with h | h
        · exact absurd h.symm hk0
        · exact h
      have hint2 : ∀ k2 ∈ rest, k2 ≠ k → ∀ nk2 b2, stripIdSuffix k2 = some (nk2, b2) →
          nk2 ≠ nk ∧ nk2 ≠ k :=
        fun k2 hk2 hne nk2 b2 hs2 =>
          hint k2 (List.mem_cons_of_mem _ hk2) hne nk2 b2 hs2
      have hnk2 : nk ∈ rest → stripIdSuffix nk = none :=
        fun h => hnk (List.mem_cons_of_mem _ h)
      cases hs0 : stripIdSuffix k0 with
      | none =>
        simp only [docToModelLoop, hs0]
        exact ih d k nk b v hmem2 hnd2 hs hv hint2 hnk2
      | some nkb0 =>
        obtain ⟨nk0, b0⟩ := nkb0
        have hh := hint k0 (List.mem_cons_self _ _) hk0 nk0 b0 hs0
        have hv2 : lookupKey (delKey (setKey d nk0 ((lookupKey d k0).getD .undefined)) k0) k
            = some v := by
          rw [lookupKey_delKey_ne _ _ _ (fun he => hk0 he.symm),
            lookupKey_setKey_ne _ _ _ _ (fun he => hh.2 he.symm), hv]
        simp only [docToModelLoop, hs0]
        exact ih _ k nk b v hmem2 hnd2 hs hv2 hint2 hnk2

/-! ## Behaviour of the encoder loop -/

theorem modelToDocStep_of_not_rel (rels : List String) (k : String) (d : Doc)
    (h : rels.contains k = false) : modelToDocStep rels k d = .ok d := by
  unfold modelToDocStep
  split
  · rename_i hc
    rw [h] at hc
    exact Bool.noConfusion hc
  · rfl

theorem modelToDocStep_hit_one (rels : List String) (k : String) (d : Doc) (v idv : JsValue)
    (hrel : rels.contains k = true)
    (hv : lookupKey d k = some v)
    (hid : getField v "id" = .ok idv)
    (ht : truthy idv = true) :
    modelToDocStep rels k d = .ok (delKey (setKey d (k ++ "Id") idv) k) := by
  simp only [modelToDocStep, hrel, if_true, hv, Option.getD_some, hid, ht, if_true]

theorem modelToDocStep_hit_many (rels : List String) (k : String) (d : Doc)
    (elems ids : List JsValue) (fidv : JsValue)
    (hrel : rels.contains k = true)
    (hv : lookupKey d k = some (.arr elems))
    (hfid : getField (elems.headD .undefined) "id" = .ok fidv)
    (htf : truthy fidv = true)
    (hmap : mapIds elems = .ok ids) :
    modelToDocStep rels k d = .ok (delKey (setKey d (k ++ "Ids") (.arr ids)) k) := by
  rw [List.headD_eq_head?] at hfid
  have hmem : k ∈ rels := by
    simpa using hrel
  simp [modelToDocStep, hmem, hv,
    show getField (JsValue.arr elems) "id" = Except.ok JsValue.undefined from rfl,
    show truthy JsValue.undefined = false from rfl, hfid, htf, hmap]

/-- A successful encoder step only deletes the processed key and writes its
suffixed variants. -/
theorem modelToDocStep_untouched (rels : List String) (k : String) (d d2 : Doc) (q : String)
    (h : modelToDocStep rels k d = .ok d2)
    (hq1 : q ≠ k) (hq2 : q ≠ k ++ "Id") (hq3 : q ≠ k ++ "Ids") :
    lookupKey d2 q = lookupKey d q := by
  unfold modelToDocStep at h
  split at h
  · split at h
    · exact Except.noConfusion h
    · rename_i idv
      split at h
      · injection h with h2
        subst h2
        rw [lookupKey_delKey_ne _ _ _ hq1, lookupKey_setKey_ne _ _ _ _ hq2]
      · split at h
        · split at h
          · exact Except.noConfusion h
          · rename_i fidv
            split at h
            · split at h
              · exact Except.noConfusion h
              · injection h with h2
                subst h2
                rw [lookupKey_delKey_ne _ _ _ hq1, lookupKey_setKey_ne _ _ _ _ hq3]
            · injection h with h2
              subst h2
              rw [lookupKey_delKey_ne _ _ _ hq1]
        · injection h with h2
          subst h2
          rw [lookupKey_delKey_ne _ _ _ hq1]
  · injection h with h2
    subst h2
    rfl

theorem modelToDocLoop_of_not_rel (rels : List String) :
    ∀ (ks : List String) (d : Doc),
      (∀ k ∈ ks, rels.contains k = false) → modelToDocLoop rels ks d = .ok d := by
  intro ks
  induction ks with
  | nil => intro d _; rfl
  | cons k rest ih =>
    intro d h
    have hk := modelToDocStep_of_not_rel rels k d (h k (List.mem_cons_self _ _))
    simp only [modelToDocLoop, hk]
    exact ih d (fun k2 hk2 => h k2 (List.mem_cons_of_mem _ hk2))

/-- A key that no declared relationship key in the snapshot equals or
targets keeps its binding through a successful encoder loop. -/
theorem modelToDocLoop_untouched (rels : List String) (q : String) :
    ∀ (ks : List String) (d d2 : Doc),
      modelToDocLoop rels ks d = .ok d2 →
      (∀ k ∈ ks, rels.contains k = true → q ≠ k ∧ q ≠ k ++ "Id" ∧ q ≠ k ++ "Ids") →
      lookupKey d2 q = lookupKey d q := by
  intro ks
  induction ks with
  | nil =>
    intro d d2 h _
    injection h with h2
    subst h2
    rfl
  | cons k rest ih =>
    intro d d2 h hq
    rw [modelToDocLoop] at h
    cases hstep : modelToDocStep rels k d with
    | error e => rw [hstep] at h; exact Except.noConfusion h
    | ok d1 =>
      rw [hstep] at h
      have hrest := ih d1 d2 h (fun k2 hk2 hr => hq k2 (List.mem_cons_of_mem _ hk2) hr)
      rw [hrest]
      by_cases hrel : rels.contains k
      · obtain ⟨h1, h2, h3⟩ := hq k (List.mem_cons_self _ _) hrel
        exact modelToDocStep_untouched rels k d d1 q hstep h1 h2 h3
      · rw [modelToDocStep_of_not_rel rels k d (Bool.not_eq_true _ ▸ hrel)] at hstep
        injection hstep with h4
        subst h4
        rfl

/-- Processing a declared relationship key `p` through the encoder loop:
assuming every snapshot key is free of the `Id`/`Ids` suffix (so no snapshot
key can alias `p` or its suffixed target), the loop writes `p ++ sfx` and
deletes `p`.  `hstep` abstracts over whether the single step writes the
to-one (`sfx = "Id"`) or to-many (`sfx = "Ids"`) form. -/
theorem modelToDocLoop_hit (rels : List String) (sfx : String) (bb : Bool) (p : String)
    (v w : JsValue)
    (hsfx : stripIdSuffix (p ++ sfx) = some (p, bb))
    (hstep : ∀ dd : Doc, lookupKey dd p = some v →
      modelToDocStep rels p dd = .ok (delKey (setKey dd (p ++ sfx) w) p)) :
    ∀ (ks : List String) (d d2 : Doc),
      modelToDocLoop rels ks d = .ok d2 →
      p ∈ ks → ks.Nodup →
      (∀ k ∈ ks, stripIdSuffix k = none) →
      lookupKey d p = some v →
      lookupKey d2 (p ++ sfx) = some w ∧ lookupKey d2 p = none := by
  intro ks
  induction ks with
  | nil => intro d d2 _ hmem; cases hmem
  | cons k0 rest ih =>
    intro d d2 h hmem hnd hsf hv
    have hnd2 := (List.nodup_cons.mp hnd).2
    have hk0nin := (List.nodup_cons.mp hnd).1
    by_cases hk0 : k0 = p
    · subst hk0
      rw [modelToDocLoop, hstep d hv] at h
      have hne_self : k0 ++ sfx ≠ k0 := (stripIdSuffix_ne_self _ _ _ hsfx).symm
      constructor
      · rw [modelToDocLoop_untouched rels (k0 ++ sfx) rest _ d2 h ?side]
        · rw [lookupKey_delKey_ne _ _ _ hne_self, lookupKey_setKey_self]
        case side =>
          intro k2 hk2 _
          refine ⟨(ne_of_stripIdSuffix_none_left k2 (k0 ++ sfx) k0 bb
            (hsf k2 (List.mem_cons_of_mem _ hk2)) hsfx).symm, ?two, ?three⟩
          case two =>
            intro he
            have hc := congrArg stripIdSuffix he
            rw [hsfx, stripIdSuffix_append_Id k2] at hc
            have hc2 := Option.some.inj hc
            injection hc2 with ha hb
            exact hk0nin (ha.symm ▸ hk2)
          case three =>
            intro he
            have hc := congrArg stripIdSuffix he
            rw [hsfx, stripIdSuffix_append_Ids k2] at hc
            have hc2 := Option.some.inj hc
            injection hc2 with ha hb
            exact hk0nin (ha.symm ▸ hk2)
      · rw [modelToDocLoop_untouched rels k0 rest _ d2 h ?side2]
        · exact lookupKey_delKey_self _ _
        case side2 =>
          intro k2 hk2 _
          refine ⟨fun he => hk0nin (he ▸ hk2), ?two2, ?three2⟩
          case two2 =>
            exact ne_of_stripIdSuffix_none_left k0 (k2 ++ "Id") k2 false
              (hsf k0 (List.mem_cons_self _ _)) (stripIdSuffix_append_Id k2)
          case three2 =>
            exact ne_of_stripIdSuffix_none_left k0 (k2 ++ "Ids") k2 true
              (hsf k0 (List.mem_cons_self _ _)) (stripIdSuffix_append_Ids k2)
    · have hmem2 : p ∈ rest := by
        rcases List.mem_cons.mp hmem with h2 | h2
        · exact absurd h2.symm hk0
        · exact h2
      rw [modelToDocLoop] at h
      cases hst : modelToDocStep rels k0 d with
      | error e => rw [hst] at h; exact Except.noConfusion h
      | ok d1 =>
        rw [hst] at h
        have hpne : p ≠ k0 := fun he => hk0 he.symm
        have hv2 : lookupKey d1 p = some v := by
          rw [modelToDocStep_untouched rels k0 d d1 p hst hpne
            (ne_of_stripIdSuffix_none_left p (k0 ++ "Id") k0 false
              (hsf p hmem) (stripIdSuffix_append_Id k0))
            (ne_of_stripIdSuffix_none_left p (k0 ++ "Ids") k0 true
              (hsf p hmem) (stripIdSuffix_append_Ids k0)), hv]
        exact ih d1 d2 h hmem2 hnd2
          (fun k2 hk2 => hsf k2 (List.mem_cons_of_mem _ hk2)) hv2

/-- Unfolding `modelToDocument` once the relationship loop has succeeded. -/
theorem modelToDocument_eq_ok (rels : List String) (inst d1 : Doc)
    (hloop : modelToDocLoop rels (keysOf inst) inst = .ok d1) :
    modelToDocument rels inst =
      if truthy ((lookupKey inst "id").getD .undefined) then
        .ok (delKey (setKey d1 "_id" ((lookupKey d1 "id").getD .undefined)) "id")
      else .ok d1 := by
  unfold modelToDocument
  rw [hloop]
  rfl

/-- End-to-end effect of the default `modelToDocument` on one declared
relationship key, given suffix-free, duplicate-free instance keys. -/
theorem modelToDocument_hit (rels : List String) (inst : Doc) (p sfx : String) (bb : Bool)
    (v w : JsValue) (doc : Doc)
    (hdoc : modelToDocument rels inst = .ok doc)
    (hsfx : stripIdSuffix (p ++ sfx) = some (p, bb))
    (hnd : (keysOf inst).Nodup)
    (hsf : ∀ k ∈ keysOf inst, stripIdSuffix k = none)
    (hv : lookupKey inst p = some v)
    (hstep : ∀ dd : Doc, lookupKey dd p = some v →
      modelToDocStep rels p dd = .ok (delKey (setKey dd (p ++ sfx) w) p))
    (hp : p ≠ "_id") :
    lookupKey doc (p ++ sfx) = some w ∧ lookupKey doc p = none := by
  cases hloop : modelToDocLoop rels (keysOf inst) inst with
  | error e =>
    unfold modelToDocument at hdoc
    rw [hloop] at hdoc
    exact Except.noConfusion hdoc
  | ok d1 =>
    have hmem : p ∈ keysOf inst := mem_keysOf_of_lookupKey inst p v hv
    have hd1 := modelToDocLoop_hit rels sfx bb p v w hsfx hstep
      (keysOf inst) inst d1 hloop hmem hnd hsf hv
    rw [modelToDocument_eq_ok rels inst d1 hloop] at hdoc
    have hsfx_ne_id : p ++ sfx ≠ "id" :=
      (ne_of_stripIdSuffix_none_left "id" (p ++ sfx) p bb stripIdSuffix_id hsfx).symm
    have hsfx_ne_uid : p ++ sfx ≠ "_id" :=
      (ne_of_stripIdSuffix_none_left "_id" (p ++ sfx) p bb stripIdSuffix_uid hsfx).symm
    split at hdoc
    · injection hdoc with h2
      subst h2
      constructor
      · rw [lookupKey_delKey_ne _ _ _ hsfx_ne_id,
          lookupKey_setKey_ne _ _ _ _ hsfx_ne_uid]
        exact hd1.1
      · by_cases hpid : p = "id"
        · subst hpid
          exact lookupKey_delKey_self _ _
        · rw [lookupKey_delKey_ne _ _ _ hpid, lookupKey_setKey_ne _ _ _ _ hp]
          exact hd1.2
    · injection hdoc with h2
      subst h2
      exact hd1

/-! ## Claims about the codec pair (C1-C4) -/

/-- C1 (counterexample): the round-trip claim fails when a scalar property
name ends in `Id`.  For the instance `{type: "t", externalId: "7",
id: "1"}` with no relationships, encoding and then decoding yields
`{type: "t", external: "7", id: "1"}`, which differs from the original at
the key `externalId` - a key unaffected by the `id`/`_id` renaming. -/
theorem C1_counterexample :
    roundtrip [] C1inst = .ok C1out ∧ ¬ eqUpToId C1out C1inst := by
  constructor
  · rfl
  · intro h
    have h2 := h "externalId" (by decide) (by decide)
    rw [show lookupKey C1out "externalId" = none from rfl,
      show lookupKey C1inst "externalId" = some (.str "7") from rfl] at h2
    exact Option.noConfusion h2

/-- C1 (amended): for an instance all of whose properties are scalar, none
of whose keys is a declared relationship, and none of whose keys matches
the `/Id(s?)$/` suffix pattern, applying the default `modelToDocument` and
then the default `documentToModel` yields an object equal to the original
instance up to the `id`/`_id` renaming. -/
theorem C1_scalar_roundtrip (rels : List String) (inst : Doc)
    (hscalar : allScalar inst = true)
    (hnorel : ∀ k ∈ keysOf inst, rels.contains k = false)
    (hsf : ∀ k ∈ keysOf inst, stripIdSuffix k = none) :
    ∃ out, roundtrip rels inst = .ok out ∧ eqUpToId out inst := by
  have hloop := modelToDocLoop_of_not_rel rels (keysOf inst) inst hnorel
  have hmd := modelToDocument_eq_ok rels inst inst hloop
  by_cases hid : truthy ((lookupKey inst "id").getD .undefined) = true
  · rw [if_pos hid] at hmd
    have hkeys : ∀ k ∈ keysOf
        (delKey (setKey inst "_id" ((lookupKey inst "id").getD .undefined)) "id"),
        stripIdSuffix k = none := by
      intro k hk
      rcases keysOf_setKey_subset inst "_id" k _ (keysOf_delKey_subset _ "id" k hk)
        with h | h
      · rw [h]; exact stripIdSuffix_uid
      · exact hsf k h
    have hdec : documentToModel
        (delKey (setKey inst "_id" ((lookupKey inst "id").getD .undefined)) "id") =
        delKey (setKey
          (delKey (setKey inst "_id" ((lookupKey inst "id").getD .undefined)) "id") "id"
          ((lookupKey
            (delKey (setKey inst "_id" ((lookupKey inst "id").getD .undefined)) "id")
            "_id").getD .undefined)) "_id" := by
      unfold documentToModel
      rw [docToModelLoop_of_none _ _ hkeys]
    refine ⟨documentToModel
      (delKey (setKey inst "_id" ((lookupKey inst "id").getD .undefined)) "id"),
      ?okcase, ?eqcase⟩
    · unfold roundtrip
      rw [hmd]
      rfl
    · rw [hdec]
      intro q hq1 hq2
      rw [lookupKey_delKey_ne _ _ _ hq2, lookupKey_setKey_ne _ _ _ _ hq1,
        lookupKey_delKey_ne _ _ _ hq1, lookupKey_setKey_ne _ _ _ _ hq2]
  · rw [if_neg hid] at hmd
    have hdec : documentToModel inst =
        delKey (setKey inst "id" ((lookupKey inst "_id").getD .undefined)) "_id" := by
      unfold documentToModel
      rw [docToModelLoop_of_none _ _ hsf]
    refine ⟨documentToModel inst, ?okcase2, ?eqcase2⟩
    · unfold roundtrip
      rw [hmd]
      rfl
    · rw [hdec]
      intro q hq1 hq2
      rw [lookupKey_delKey_ne _ _ _ hq2, lookupKey_setKey_ne _ _ _ _ hq1]

/-- Witness for `C1_scalar_roundtrip` at the instance
`{name: "n", id: "1"}` with one declared (absent) relationship. -/
theorem C1_scalar_roundtrip_witness :
    allScalar C1winst = true ∧
      (∃ out, roundtrip ["rel"] C1winst = .ok out ∧ eqUpToId out C1winst) := by
  refine ⟨by decide, C1_scalar_roundtrip ["rel"] C1winst (by decide) ?h1 ?h2⟩
  · intro k hk
    rw [show keysOf C1winst = ["name", "id"] from rfl] at hk
    rcases List.mem_cons.mp hk with rfl | hk2
    · decide
    · rcases List.mem_singleton.mp hk2 with rfl
      decide
  · intro k hk
    rw [show keysOf C1winst = ["name", "id"] from rfl] at hk
    rcases List.mem_cons.mp hk with rfl | hk2
    · decide
    · rcases List.mem_singleton.mp hk2 with rfl
      decide

/-- C2 (counterexample): with relationships `linked` and `linkedId` both
declared and both present, the instance whose to-one property `linked`
holds an object with identifier `"X"` encodes to the empty document: the
loop first overwrites `linkedId` with `"X"`, then processes `linkedId`
(now a plain string, with no `id` and not an array) and deletes it.  The
output therefore does not contain `linkedId = "X"`. -/
theorem C2_counterexample :
    C2rels.contains "linked" = true ∧
    lookupKey C2inst "linked" = some (.obj [("id", .str "X")]) ∧
    modelToDocument C2rels C2inst = .ok [] ∧
    lookupKey ([] : Doc) "linkedId" = none := by
  exact ⟨rfl, rfl, rfl, rfl⟩

/-- C2 (amended): provided the instance's keys are duplicate-free and none
of them matches the `/Id(s?)$/` suffix pattern (so no declared relationship
aliases another's encoded key), and the property is not named `_id`: a
schema-declared relationship property holding an object with a truthy
identifier encodes to `<prop>Id` bound to that identifier with the bare
key absent, and one holding an array whose first element has a truthy
identifier encodes to `<prop>Ids` bound to the mapped identifiers with the
bare key absent - whenever `modelToDocument` succeeds. -/
theorem C2_relationship_flattening (rels : List String) (inst : Doc) (p : String)
    (hnd : (keysOf inst).Nodup)
    (hsf : ∀ k ∈ keysOf inst, stripIdSuffix k = none)
    (hrel : rels.contains p = true)
    (hp : p ≠ "_id") :
    (∀ (v idv : JsValue) (doc : Doc),
      lookupKey inst p = some v →
      getField v "id" = .ok idv →
      truthy idv = true →
      modelToDocument rels inst = .ok doc →
      lookupKey doc (p ++ "Id") = some idv ∧ lookupKey doc p = none) ∧
    (∀ (elems ids : List JsValue) (fidv : JsValue) (doc : Doc),
      lookupKey inst p = some (.arr elems) →
      getField (elems.headD .undefined) "id" = .ok fidv →
      truthy fidv = true →
      mapIds elems = .ok ids →
      modelToDocument rels inst = .ok doc →
      lookupKey doc (p ++ "Ids") = some (.arr ids) ∧ lookupKey doc p = none) := by
  constructor
  · intro v idv doc hv hid ht hdoc
    exact modelToDocument_hit rels inst p "Id" false v idv doc hdoc
      (stripIdSuffix_append_Id p) hnd hsf hv
      (fun dd hvdd => modelToDocStep_hit_one rels p dd v idv hrel hvdd hid ht) hp
  · intro elems ids fidv doc hv hfid htf hmap hdoc
    exact modelToDocument_hit rels inst p "Ids" true (.arr elems) (.arr ids) doc hdoc
      (stripIdSuffix_append_Ids p) hnd hsf hv
      (fun dd hvdd =>
        modelToDocStep_hit_many rels p dd elems ids fidv hrel hvdd hfid htf hmap) hp

/-- Witness for `C2_relationship_flattening`: the to-one property `linked`
holding `{id: "X"}` yields `linkedId = "X"`, and the to-many property
`tags` holding objects with identifiers `A`, `B` yields
`tagsIds = ["A", "B"]`, the bare keys being absent in both cases. -/
theorem C2_relationship_flattening_witness :
    (lookupKey C2wdoc "linkedId" = some (.str "X") ∧
      lookupKey C2wdoc "linked" = none) ∧
    (lookupKey C2wdoc "tagsIds" = some (.arr [.str "A", .str "B"]) ∧
      lookupKey C2wdoc "tags" = none) := by
  have hsfw : ∀ k ∈ keysOf C2winst, stripIdSuffix k = none := by
    intro k hk
    rw [show keysOf C2winst = ["linked", "tags"] from rfl] at hk
    rcases List.mem_cons.mp hk with rfl | hk2
    · decide
    · rcases List.mem_singleton.mp hk2 with rfl
      decide
  constructor
  · exact (C2_relationship_flattening ["linked", "tags"] C2winst "linked"
      (by decide) hsfw (by decide) (by decide)).1
      (.obj [("id", .str "X")]) (.str "X") C2wdoc rfl rfl rfl rfl
  · exact (C2_relationship_flattening ["linked", "tags"] C2winst "tags"
      (by decide) hsfw (by decide) (by decide)).2
      [.obj [("id", .str "A")], .obj [("id", .str "B")]] [.str "A", .str "B"]
      (.str "A") C2wdoc rfl rfl rfl rfl rfl

/-- C3: on an instance whose declared to-many relationship property holds
an empty array, the default `modelToDocument` does not succeed: the guard
`Array.isArray(prop) && prop[0].id` reads property `id` of
`prop[0] = undefined` and throws a `TypeError`.  The spec instead states
that encoding succeeds and simply omits the `<property>Ids` key. -/
theorem C3_empty_to_many_throws :
    modelToDocument ["items"] C3inst =
      .error (.typeError "Cannot read property id of undefined") := by
  rfl

/-- C4 (counterexample): the claim quantifies over every document
containing `linkedId = "7"`, but for `{linkedId: "7", linkedIds: "9"}` the
decoder first moves `"7"` to `linked` and then overwrites it with `"9"`
when it strips `linkedIds`, so the output does not contain
`linked = "7"`. -/
theorem C4_counterexample :
    lookupKey C4doc "linkedId" = some (.str "7") ∧
    lookupKey (documentToModel C4doc) "linked" = some (.str "9") ∧
    lookupKey (documentToModel C4doc) "linked" ≠ some (.str "7") := by
  refine ⟨rfl, rfl, ?ne⟩
  intro h
  rw [show lookupKey (documentToModel C4doc) "linked" = some (.str "9") from rfl] at h
  have h2 := Option.some.inj h
  injection h2 with h3
  exact absurd h3 (by decide)

/-- C4 (amended): for a document with duplicate-free keys containing a key
`k` matching the `/Id(s?)$/` pattern with stripped name `nk` (a trailing
`Id` stripping two characters as to-one, a trailing `Ids` stripping three
as to-many), where `nk` is not `id` or `_id`, no other key of the document
strips onto `nk` or onto `k`, and `nk` itself (if present) is not a
suffixed key, the default `documentToModel` output binds `nk` to the value
of `k` and no longer contains `k`. -/
theorem C4_suffix_stripping (d : Doc) (k nk : String) (b : Bool) (v : JsValue)
    (hnd : (keysOf d).Nodup)
    (hstrip : stripIdSuffix k = some (nk, b))
    (hv : lookupKey d k = some v)
    (hnk_id : nk ≠ "id") (hnk_uid : nk ≠ "_id")
    (hint : ∀ k2 ∈ keysOf d, k2 ≠ k → ∀ nk2 b2, stripIdSuffix k2 = some (nk2, b2) →
      nk2 ≠ nk ∧ nk2 ≠ k)
    (hnk : nk ∈ keysOf d → stripIdSuffix nk = none) :
    lookupKey (documentToModel d) nk = some v ∧
      lookupKey (documentToModel d) k = none := by
  have hmem := mem_keysOf_of_lookupKey d k v hv
  have hd1 := docToModelLoop_hit (keysOf d) d k nk b v hmem hnd hstrip hv hint hnk
  have hk_id : k ≠ "id" :=
    (ne_of_stripIdSuffix_none_left "id" k nk b stripIdSuffix_id hstrip).symm
  have hk_uid : k ≠ "_id" :=
    (ne_of_stripIdSuffix_none_left "_id" k nk b stripIdSuffix_uid hstrip).symm
  unfold documentToModel
  constructor
  · rw [lookupKey_delKey_ne _ _ _ hnk_uid, lookupKey_setKey_ne _ _ _ _ hnk_id]
    exact hd1.1
  · rw [lookupKey_delKey_ne _ _ _ hk_uid, lookupKey_setKey_ne _ _ _ _ hk_id]
    exact hd1.2

/-- Witness for `C4_suffix_stripping` at the document
`{linkedId: "7"}`: decoding yields `linked = "7"` with no `linkedId`. -/
theorem C4_suffix_stripping_witness :
    lookupKey (documentToModel C4wdoc) "linked" = some (.str "7") ∧
      lookupKey (documentToModel C4wdoc) "linkedId" = none := by
  refine C4_suffix_stripping C4wdoc "linkedId" "linked" false (.str "7")
    (by decide) (by decide) rfl (by decide) (by decide) ?hint ?hnk
  · intro k2 hk2 hne nk2 b2 hs2
    rw [show keysOf C4wdoc = ["linkedId"] from rfl] at hk2
    rcases List.mem_singleton.mp hk2 with rfl
    exact absurd rfl hne
  · intro h
    rw [show keysOf C4wdoc = ["linkedId"] from rfl] at h
    exact absurd (List.mem_singleton.mp h) (by decide)

/-! ## Claims about the adapter operations (C5-C10) -/

/-- C5: `getRelated`'s response callback returns, when
`relationship.hasMany` is falsy (the to-many flag is false), the decoded
first row document bare - not wrapped in a `rows` object - and, when the
flag is truthy, `{rows: [...]}` of all decoded row documents. -/
theorem C5_getRelated_shape (rel : JsValue) (rows : List Doc) :
    (truthy (fieldD rel "hasMany") = false →
      ∀ (d : Doc) (rest : List Doc), rows = d :: rest →
        getRelatedCont rel rows = .ok (.obj (documentToModel d))) ∧
    (truthy (fieldD rel "hasMany") = true →
      getRelatedCont rel rows =
        .ok (.obj [("rows",
          .arr (rows.map (fun d => .obj (documentToModel d))))])) := by
  constructor
  · intro hm d rest hrows
    subst hrows
    simp [getRelatedCont, hm]
  · intro hm
    simp [getRelatedCont, hm]

/-- Witness for `C5_getRelated_shape`: with `hasMany` absent the single
row comes back bare; with `hasMany = "y"` the rows come back wrapped. -/
theorem C5_getRelated_shape_witness :
    getRelatedCont (.obj []) [[("_id", .str "1")]] =
      .ok (.obj (documentToModel [("_id", .str "1")])) ∧
    getRelatedCont (.obj [("hasMany", .str "y")]) [[("_id", .str "1")]] =
      .ok (.obj [("rows", .arr ([[("_id", .str "1")]].map
        (fun d => .obj (documentToModel d))))]) :=
  ⟨(C5_getRelated_shape (.obj []) [[("_id", .str "1")]]).1 rfl
      [("_id", .str "1")] [] rfl,
    (C5_getRelated_shape (.obj [("hasMany", .str "y")]) [[("_id", .str "1")]]).2 rfl⟩

/-- C6: for a valid instance (present, with the `toJSON` capability, and
convertible to a document), `create` resolves with the very instance it
was passed, mutated in place: its `id` and `_rev` now carry the identifier
and revision of the store's insert response, and every other property is
untouched. -/
theorem C6_create_assigns_id_rev (rels : List String) (i : KuduInstance)
    (res d : Doc) (idv rv : JsValue)
    (hJSON : i.hasToJSON = true)
    (hconv : modelToDocument rels i.data = .ok d)
    (hid : lookupKey res "_id" = some idv)
    (hrev : lookupKey res "_rev" = some rv) :
    create rels (some i) res = .ok (createCont i res) ∧
    lookupKey (createCont i res) "id" = some idv ∧
    lookupKey (createCont i res) "_rev" = some rv ∧
    ∀ q : String, q ≠ "id" → q ≠ "_rev" →
      lookupKey (createCont i res) q = lookupKey i.data q := by
  refine ⟨?res, ?idp, ?revp, ?frame⟩
  · simp [create, hJSON, hconv, Except.map]
  · unfold createCont
    rw [lookupKey_setKey_ne _ _ _ _ (show ("id" : String) ≠ "_rev" by decide),
      lookupKey_setKey_self, hid]
    exact rfl
  · unfold createCont
    rw [lookupKey_setKey_self, hrev]
    exact rfl
  · intro q hq1 hq2
    unfold createCont
    rw [lookupKey_setKey_ne _ _ _ _ hq2, lookupKey_setKey_ne _ _ _ _ hq1]

/-- Witness for `C6_create_assigns_id_rev`: the store responding
`{_id: "1", _rev: "1"}` leaves the instance with `id = "1"` and
`_rev = "1"`. -/
theorem C6_create_assigns_id_rev_witness :
    create [] (some ⟨[("type", .str "t")], true⟩)
      [("_id", .str "1"), ("_rev", .str "1")] =
      .ok (createCont ⟨[("type", .str "t")], true⟩
        [("_id", .str "1"), ("_rev", .str "1")]) ∧
    lookupKey (createCont ⟨[("type", .str "t")], true⟩
      [("_id", .str "1"), ("_rev", .str "1")]) "id" = some (.str "1") ∧
    lookupKey (createCont ⟨[("type", .str "t")], true⟩
      [("_id", .str "1"), ("_rev", .str "1")]) "_rev" = some (.str "1") := by
  have h := C6_create_assigns_id_rev [] ⟨[("type", .str "t")], true⟩
    [("_id", .str "1"), ("_rev", .str "1")] [("type", .str "t")]
    (.str "1") (.str "1") rfl rfl rfl rfl
  exact ⟨h.1, h.2.1, h.2.2.1⟩

/-- C7: every operation invoked with a missing (falsy) required argument -
or, for `create` and `update`, a missing or non-convertible instance -
returns its invalid-argument error from the synchronous step, producing no
`StoreRequest`, so no call reaches the document-store collaborator. -/
theorem C7_missing_arguments (ty id avt avid rel dsn vw : JsValue)
    (views : ViewsConfig) (rels : List String) (i : KuduInstance) :
    (truthy ty = false ∨ truthy id = false →
      getStep ty id =
        .error (.jsError "Expected a Kudu model type and unique identifier.")) ∧
    (truthy ty = false →
      getAllStep ty views = .error (.jsError "Expected a Kudu model type.")) ∧
    (truthy avt = false ∨ truthy avid = false ∨ truthy rel = false →
      getRelatedStep avt avid rel views = .error (.jsError
        "Expected an ancestor type, an identifier and a relationship object.")) ∧
    (truthy dsn = false ∨ truthy vw = false →
      getFromViewStep dsn vw = .error (.jsError
        "Expected a design document identifier and view.")) ∧
    createStep rels none =
      .error (.jsError "Expected a Kudu model instance to save.") ∧
    (i.hasToJSON = false →
      createStep rels (some i) =
        .error (.jsError "Expected a Kudu model instance to save.")) ∧
    updateStep rels none =
      .error (.jsError "Expected a Kudu model instance to update.") ∧
    (i.hasToJSON = false →
      updateStep rels (some i) =
        .error (.jsError "Expected a Kudu model instance to update.")) := by
  refine ⟨?g1, ?g2, ?g3, ?g4, rfl, ?g5, rfl, ?g6⟩
  · intro h
    rcases h with h | h <;> simp [getStep, h]
  · intro h
    simp [getAllStep, h]
  · intro h
    rcases h with h | h | h <;> simp [getRelatedStep, h]
  · intro h
    rcases h with h | h <;> simp [getFromViewStep, h]
  · intro h
    simp [createStep, h]
  · intro h
    simp [updateStep, h]

/-- Witness for `C7_missing_arguments` at concrete falsy arguments
(`undefined` and the empty string) and a `toJSON`-less instance. -/
theorem C7_missing_arguments_witness :
    getStep .undefined (.str "1") =
      .error (.jsError "Expected a Kudu model type and unique identifier.") ∧
    getAllStep .undefined defaultViews =
      .error (.jsError "Expected a Kudu model type.") ∧
    getRelatedStep (.str "a") .undefined (.str "r") defaultViews =
      .error (.jsError
        "Expected an ancestor type, an identifier and a relationship object.") ∧
    getFromViewStep (.str "") (.str "") =
      .error (.jsError "Expected a design document identifier and view.") ∧
    createStep [] (some ⟨[], false⟩) =
      .error (.jsError "Expected a Kudu model instance to save.") ∧
    updateStep [] (some ⟨[], false⟩) =
      .error (.jsError "Expected a Kudu model instance to update.") := by
  have h := C7_missing_arguments .undefined (.str "1") (.str "a") .undefined (.str "r")
    (.str "") (.str "") defaultViews [] ⟨[], false⟩
  exact ⟨h.1 (Or.inl rfl), h.2.1 rfl, h.2.2.1 (Or.inr (Or.inl rfl)),
    h.2.2.2.1 (Or.inl rfl), h.2.2.2.2.2.1 rfl, h.2.2.2.2.2.2.2 rfl⟩

/-- C8: with valid arguments but a resolved view descriptor missing its
design-document identifier or its view identifier, `getAll` and
`getRelated` return the missing-view configuration error from the
synchronous step, producing no store request. -/
theorem C8_missing_view (ty avt avid rel : JsValue) (views : ViewsConfig)
    (hty : truthy ty = true) (h1 : truthy avt = true) (h2 : truthy avid = true)
    (h3 : truthy rel = true) :
    (viewIncomplete views.typeView = true →
      getAllStep ty views =
        .error (.jsError "No CouchDB view available for type queries.")) ∧
    (viewIncomplete views.relatedView = true →
      getRelatedStep avt avid rel views =
        .error (.jsError "No CouchDB view available for type queries.")) := by
  constructor
  · intro hvc
    simp [getAllStep, hty, hvc]
  · intro hvc
    simp [getRelatedStep, h1, h2, h3, hvc]

/-- Witness for `C8_missing_view` with empty view descriptors. -/
theorem C8_missing_view_witness :
    getAllStep (.str "t") ⟨[], []⟩ =
      .error (.jsError "No CouchDB view available for type queries.") ∧
    getRelatedStep (.str "a") (.str "1") (.str "r") ⟨[], []⟩ =
      .error (.jsError "No CouchDB view available for type queries.") := by
  have h := C8_missing_view (.str "t") (.str "a") (.str "1") (.str "r")
    ⟨[], []⟩ rfl rfl rfl rfl
  exact ⟨h.1 rfl, h.2 rfl⟩

/-- C9: `get` with a truthy type and a non-empty array of identifiers
issues a `fetch` for exactly that identifier sequence, and for whatever
sequence of documents the store resolves, the callback returns
`{rows: [...]}` with exactly one decoded row per resolved document, in the
same order. -/
theorem C9_get_sequence (ty : JsValue) (ids : List JsValue)
    (hty : truthy ty = true) (hne : ids ≠ []) :
    getStep ty (.arr ids) = .ok (.fetch ids) ∧
    ∀ res : List Doc, ∃ rows : List JsValue,
      getContMany res = .obj [("rows", .arr rows)] ∧
      rows.length = res.length ∧
      ∀ (j : Nat) (hj : j < rows.length) (hj2 : j < res.length),
        rows.get ⟨j, hj⟩ = .obj (documentToModel (res.get ⟨j, hj2⟩)) := by
  constructor
  · simp [getStep, hty, show truthy (JsValue.arr ids) = true from rfl]
  · intro res
    refine ⟨res.map (fun d => .obj (documentToModel d)), rfl, by simp, ?els⟩
    intro j hj hj2
    simp [List.get_eq_getElem, List.getElem_map]

/-- Witness for `C9_get_sequence` with identifiers `["1", "2"]` and a
one-document store response. -/
theorem C9_get_sequence_witness :
    getStep (.str "t") (.arr [.str "1", .str "2"]) =
      .ok (.fetch [.str "1", .str "2"]) ∧
    ∃ rows : List JsValue,
      getContMany C9res = .obj [("rows", .arr rows)] ∧
      rows.length = C9res.length ∧
      ∀ (j : Nat) (hj : j < rows.length) (hj2 : j < C9res.length),
        rows.get ⟨j, hj⟩ = .obj (documentToModel (C9res.get ⟨j, hj2⟩)) := by
  have h := C9_get_sequence (.str "t") [.str "1", .str "2"] rfl
    (List.cons_ne_nil _ _)
  exact ⟨h.1, h.2 C9res⟩

/-- C10: when `relationship.hasMany` is falsy and the store's view query
returns zero rows, `getRelated`'s callback throws the `TypeError` from
`res.rows[0].doc` (so the returned promise rejects); it never resolves
with any value, null-like or otherwise. -/
theorem C10_getRelated_toOne_empty (rel : JsValue)
    (h : truthy (fieldD rel "hasMany") = false) :
    getRelatedCont rel [] =
      .error (.typeError "Cannot read property doc of undefined") ∧
    ∀ v : JsValue, getRelatedCont rel [] ≠ .ok v := by
  have he : getRelatedCont rel [] =
      .error (.typeError "Cannot read property doc of undefined") := by
    simp [getRelatedCont, h]
  exact ⟨he, fun v hv => by rw [he] at hv; exact Except.noConfusion hv⟩

/-- Witness for `C10_getRelated_toOne_empty` with the relationship passed
as a plain string (as the repository's tests do), whose `hasMany` is
`undefined`. -/
theorem C10_getRelated_toOne_empty_witness :
    getRelatedCont (.str "rel") [] =
      .error (.typeError "Cannot read property doc of undefined") ∧
    ∀ v : JsValue, getRelatedCont (.str "rel") [] ≠ .ok v :=
  C10_getRelated_toOne_empty (.str "rel") rfl

end KuduCouch
